import Mathlib

/-
Verification of the k8s-mcp-server mapping layer: a shallow embedding of the
tool-dispatch handlers (internal/handlers), the cluster client adapter
(internal/k8s) and the display records, with theorems settling the spec's
claims about argument handling, display projection, age formatting, the log
read loop, JSON round-tripping and the startup log-level parse.

Machine integers: Go's int32/int64 values are modelled as Int (no overflow is
reachable in the claims' scope); a Go float64 is modelled as an exact Rat
(float rounding is not modelled; the claims only evaluate floats at integral
values). Wall-clock time is an Int count of nanoseconds (Go time.Duration /
UnixNano), passed explicitly where the source calls time.Since.
-/

namespace K8sMcp

/-! ## Tool-call arguments

The handlers receive `map[string]interface{}` arguments decoded from JSON.
A value is modelled by `GoVal`; the map by an association list with unique
keys, looked up by `argLookup` (first match, as for a Go map). -/

/-- Dynamic argument value, as the Go type switches in the handlers see it:
a JSON string decodes to `string`, a JSON number to `float64`; an `int` can
arrive from other in-process callers; booleans, null, arrays and objects are
never inspected beyond their failing type assertion, so they collapse to
`boolVal`/`nullVal`/`other`. -/
inductive GoVal where
  | str (s : String)
  | num (q : Rat)
  | int (n : Int)
  | boolVal (b : Bool)
  | nullVal
  | other
deriving DecidableEq

/-- Tool-call argument map (`map[string]interface{}`), keys unique. -/
abbrev Args := List (String × GoVal)

/-- Go map indexing `args[key]`: the value if the key is present. -/
def argLookup (args : Args) (key : String) : Option GoVal :=
  List.lookup key args

/-! ## strconv.ParseInt(s, 10, 64)

Embedded from the Go standard library's ParseInt as the handlers call it:
an optional single leading sign, then one or more base-10 digits (base 10 is
explicit, so no underscores), with an int64 range check. A parse or range
failure is `none` (the handler only looks at `err == nil`). -/

/-- Decimal digit value of a character, if it is one. -/
def digit? (c : Char) : Option Nat :=
  if '0' ≤ c ∧ c ≤ '9' then some (c.toNat - '0'.toNat) else none

/-- Accumulating scan of decimal digits; fails at the first non-digit. -/
def decDigitsAux : List Char → Nat → Option Nat
  | [], acc => some acc
  | c :: cs, acc =>
    match digit? c with
    | some d => decDigitsAux cs (acc * 10 + d)
    | none => none

/-- Magnitude of a non-empty all-digit character list. -/
def decDigits? : List Char → Option Nat
  | [] => none
  | cs => decDigitsAux cs 0

def int64MaxVal : Int := 9223372036854775807

def int64MinVal : Int := -9223372036854775808

/-- Model of `strconv.ParseInt(s, 10, 64)`: `some n` when Go returns
`(n, nil)`, `none` when Go returns a non-nil error (syntax or range). -/
def goParseInt64 (s : String) : Option Int :=
  match s.data with
  | [] => none
  | c :: rest =>
    let signed : Bool × List Char :=
      if c = '+' then (false, rest)
      else if c = '-' then (true, rest)
      else (false, c :: rest)
    match decDigits? signed.2 with
    | none => none
    | some mag =>
      if signed.1 then
        if -(mag : Int) < int64MinVal then none else some (-(mag : Int))
      else
        if int64MaxVal < (mag : Int) then none else some (mag : Int)

/-! ## Display records (internal/k8s/types.go)

Field names follow the Go structs; `map[string]string` fields are
association lists; `Type` becomes `ServiceType` (a Lean keyword clash). -/

structure PodInfo where
  Name : String
  Namespace : String
  Status : String
  Ready : String
  Restarts : Int
  Age : String
  Labels : List (String × String)
  NodeName : String
  PodIP : String
deriving DecidableEq

structure ServiceInfo where
  Name : String
  Namespace : String
  ServiceType : String
  ClusterIP : String
  ExternalIPs : List String
  Ports : List String
  Age : String
  Labels : List (String × String)
  Selector : List (String × String)
deriving DecidableEq

structure DeploymentInfo where
  Name : String
  Namespace : String
  Ready : String
  UpToDate : Int
  Available : Int
  Age : String
  Labels : List (String × String)
  Replicas : Int
deriving DecidableEq

structure NamespaceInfo where
  Name : String
  Status : String
  Age : String
  Labels : List (String × String)
deriving DecidableEq

/-! ## Upstream resource objects (k8s.io/api), restricted to the fields the
adapter reads. `CreationTimestamp` is the creation instant in nanoseconds;
a `*int32` field is an `Option Int` whose `none` is a nil pointer. -/

structure ContainerStatus where
  Ready : Bool
  RestartCount : Int
deriving DecidableEq

structure PodSpec where
  NodeName : String
deriving DecidableEq

structure PodStatus where
  Phase : String
  ContainerStatuses : List ContainerStatus
  PodIP : String
deriving DecidableEq

structure Pod where
  Name : String
  Namespace : String
  Labels : List (String × String)
  CreationTimestamp : Int
  Spec : PodSpec
  Status : PodStatus
deriving DecidableEq

structure ServicePort where
  Port : Int
  Protocol : String
  NodePort : Int
deriving DecidableEq

structure LoadBalancerIngress where
  IP : String
  Hostname : String
deriving DecidableEq

structure ServiceSpec where
  ServiceType : String
  ClusterIP : String
  Ports : List ServicePort
  Selector : List (String × String)
deriving DecidableEq

structure ServiceStatus where
  LoadBalancerIngress : List LoadBalancerIngress
deriving DecidableEq

structure Service where
  Name : String
  Namespace : String
  Labels : List (String × String)
  CreationTimestamp : Int
  Spec : ServiceSpec
  Status : ServiceStatus
deriving DecidableEq

structure DeploymentSpec where
  Replicas : Option Int
deriving DecidableEq

structure DeploymentStatus where
  ReadyReplicas : Int
  UpdatedReplicas : Int
  AvailableReplicas : Int
deriving DecidableEq

structure Deployment where
  Name : String
  Namespace : String
  Labels : List (String × String)
  CreationTimestamp : Int
  Spec : DeploymentSpec
  Status : DeploymentStatus
deriving DecidableEq

structure NamespaceStatus where
  Phase : String
deriving DecidableEq

structure NamespaceResource where
  Name : String
  Labels : List (String × String)
  CreationTimestamp : Int
  Status : NamespaceStatus
deriving DecidableEq

namespace k8s

/-! ## formatAge (internal/k8s/client.go)

Go computes `age := time.Since(creationTime)` (an int64 of nanoseconds) and
converts `int(age.Seconds())` etc.; the float conversion truncates toward
zero, which on a Duration is `Int.tdiv` by the unit (float rounding noise is
not modelled). The wall clock `now` is passed explicitly. -/

def nsPerSecond : Int := 1000000000

def nsPerMinute : Int := 60 * nsPerSecond

def nsPerHour : Int := 60 * nsPerMinute

/-- Embedding of `formatAge`, with `time.Since(creationTime)` expanded to
`now - creationTime`. The final branch is `int(age.Hours() / 24)`: a single
truncation of the real quotient by 24 hours. -/
def formatAge (now creationTime : Int) : String :=
  let age := now - creationTime
  if age < nsPerMinute then toString (Int.tdiv age nsPerSecond) ++ "s"
  else if age < nsPerHour then toString (Int.tdiv age nsPerMinute) ++ "m"
  else if age < 24 * nsPerHour then toString (Int.tdiv age nsPerHour) ++ "h"
  else toString (Int.tdiv age (24 * nsPerHour)) ++ "d"

/-! ## Projection builders -/

/-- Accumulator of the container-status loop in `buildPodInfo`. -/
structure PodCounts where
  readyContainers : Int
  totalContainers : Int
  restarts : Int
deriving DecidableEq

/-- Body of the container-status loop: always count the container, count it
ready when its status says so, and accumulate its restarts. -/
def podCountStep (a : PodCounts) (cs : ContainerStatus) : PodCounts :=
  { readyContainers := a.readyContainers + (if cs.Ready then 1 else 0),
    totalContainers := a.totalContainers + 1,
    restarts := a.restarts + cs.RestartCount }

/-- Embedding of `buildPodInfo`: one pass over the container statuses counts
total, ready and summed restarts; `Ready` is "ready/total". -/
def buildPodInfo (now : Int) (pod : Pod) : PodInfo :=
  let c := pod.Status.ContainerStatuses.foldl podCountStep (PodCounts.mk 0 0 0)
  { Name := pod.Name,
    Namespace := pod.Namespace,
    Status := pod.Status.Phase,
    Ready := toString c.readyContainers ++ "/" ++ toString c.totalContainers,
    Restarts := c.restarts,
    Age := formatAge now pod.CreationTimestamp,
    Labels := pod.Labels,
    NodeName := pod.Spec.NodeName,
    PodIP := pod.Status.PodIP }

/-- Embedding of `buildServiceInfo`: formats each port as
"port/protocol" (plus ":nodePort" when non-zero) and collects load-balancer
ingress IPs and hostnames, in order. -/
def buildServiceInfo (now : Int) (service : Service) : ServiceInfo :=
  let ports := service.Spec.Ports.foldl
    (fun acc p =>
      let portStr := toString p.Port ++ "/" ++ p.Protocol
      let portStr := if p.NodePort ≠ 0 then portStr ++ ":" ++ toString p.NodePort else portStr
      acc ++ [portStr]) []
  let externalIPs := service.Status.LoadBalancerIngress.foldl
    (fun acc ing =>
      let acc := if ing.IP ≠ "" then acc ++ [ing.IP] else acc
      if ing.Hostname ≠ "" then acc ++ [ing.Hostname] else acc) []
  { Name := service.Name,
    Namespace := service.Namespace,
    ServiceType := service.Spec.ServiceType,
    ClusterIP := service.Spec.ClusterIP,
    ExternalIPs := externalIPs,
    Ports := ports,
    Age := formatAge now service.CreationTimestamp,
    Labels := service.Labels,
    Selector := service.Spec.Selector }

/-- Embedding of `buildDeploymentInfo`. The source dereferences
`*deployment.Spec.Replicas` with no nil check; `none` is that unguarded
nil-pointer fault (a runtime panic, not an error result). -/
def buildDeploymentInfo (now : Int) (d : Deployment) : Option DeploymentInfo :=
  match d.Spec.Replicas with
  | none => none
  | some r =>
    some
      { Name := d.Name,
        Namespace := d.Namespace,
        Ready := toString d.Status.ReadyReplicas ++ "/" ++ toString r,
        UpToDate := d.Status.UpdatedReplicas,
        Available := d.Status.AvailableReplicas,
        Age := formatAge now d.CreationTimestamp,
        Labels := d.Labels,
        Replicas := r }

/-- Embedding of `buildNamespaceInfo`. -/
def buildNamespaceInfo (now : Int) (ns : NamespaceResource) : NamespaceInfo :=
  { Name := ns.Name,
    Status := ns.Status.Phase,
    Age := formatAge now ns.CreationTimestamp,
    Labels := ns.Labels }

/-! ## Client list operations

Each wraps one upstream API call. The clientset's response is passed in as
an `Except String` value (the upstream library is external); the Go
`for … append` loop over `Items` is the `foldl` with `++ [·]`. -/

/-- Embedding of `Client.ListPods`: wrap an upstream error with context, or
project every item in order. -/
def ListPods (now : Int) (ns : String) (upstream : Except String (List Pod)) :
    Except String (List PodInfo) :=
  match upstream with
  | .error e => .error ("failed to list pods in namespace " ++ ns ++ ": " ++ e)
  | .ok pods => .ok (pods.foldl (fun acc p => acc ++ [buildPodInfo now p]) [])

/-- Embedding of `Client.ListServices`. -/
def ListServices (now : Int) (ns : String) (upstream : Except String (List Service)) :
    Except String (List ServiceInfo) :=
  match upstream with
  | .error e => .error ("failed to list services in namespace " ++ ns ++ ": " ++ e)
  | .ok ss => .ok (ss.foldl (fun acc s => acc ++ [buildServiceInfo now s]) [])

/-- Loop body of `Client.ListDeployments`: `none` is the nil-pointer panic of
`buildDeploymentInfo` propagating out of the loop. -/
def buildDeploymentInfos (now : Int) (ds : List Deployment) :
    Option (List DeploymentInfo) :=
  ds.foldl
    (fun acc d =>
      match acc, buildDeploymentInfo now d with
      | some infos, some i => some (infos ++ [i])
      | _, _ => none)
    (some [])

/-- Embedding of `Client.ListDeployments`; the outer `Option` is the
unguarded nil-pointer fault, the inner `Except` the returned error. -/
def ListDeployments (now : Int) (ns : String)
    (upstream : Except String (List Deployment)) :
    Option (Except String (List DeploymentInfo)) :=
  match upstream with
  | .error e => some (.error ("failed to list deployments in namespace " ++ ns ++ ": " ++ e))
  | .ok ds =>
    match buildDeploymentInfos now ds with
    | none => none
    | some infos => some (.ok infos)

/-- Embedding of `Client.ListNamespaces`. -/
def ListNamespaces (now : Int) (upstream : Except String (List NamespaceResource)) :
    Except String (List NamespaceInfo) :=
  match upstream with
  | .error e => .error ("failed to list namespaces: " ++ e)
  | .ok nss => .ok (nss.foldl (fun acc n => acc ++ [buildNamespaceInfo now n]) [])

/-- Embedding of `Client.GetPod`. -/
def GetPod (now : Int) (ns name : String) (upstream : Except String Pod) :
    Except String PodInfo :=
  match upstream with
  | .error e => .error ("failed to get pod " ++ name ++ " in namespace " ++ ns ++ ": " ++ e)
  | .ok pod => .ok (buildPodInfo now pod)

/-- Embedding of `Client.GetService`. -/
def GetService (now : Int) (ns name : String) (upstream : Except String Service) :
    Except String ServiceInfo :=
  match upstream with
  | .error e => .error ("failed to get service " ++ name ++ " in namespace " ++ ns ++ ": " ++ e)
  | .ok s => .ok (buildServiceInfo now s)

/-- Embedding of `Client.GetDeployment` (may hit the nil-pointer fault). -/
def GetDeployment (now : Int) (ns name : String) (upstream : Except String Deployment) :
    Option (Except String DeploymentInfo) :=
  match upstream with
  | .error e => some (.error ("failed to get deployment " ++ name ++ " in namespace " ++ ns ++ ": " ++ e))
  | .ok d =>
    match buildDeploymentInfo now d with
    | none => none
    | some i => some (.ok i)

/-! ## GetPodLogs: the stream read loop

`req.Stream(ctx)` either fails (wrapped error) or yields a reader. The loop
`n, err := logs.Read(buf)` appends whatever bytes arrived and `break`s at the
first non-nil error — io.EOF and every other error alike — after which the
accumulated text is returned with a nil error. A terminated execution of the
loop is a finite sequence of `ReadStep`s whose last step carries the error. -/

/-- How a Read call ended the loop, when it did: normal end of stream, or
any other stream error. -/
inductive ReadEnd where
  | eof
  | err (msg : String)
deriving DecidableEq

/-- One `logs.Read(buf)` outcome: the bytes delivered by this call and the
error it returned alongside them, if any. -/
structure ReadStep where
  chunk : String
  stop : Option ReadEnd
deriving DecidableEq

/-- The read loop of `Client.GetPodLogs`: append each chunk, break at the
first step that carries an error (of either kind). -/
def readAll : List ReadStep → String
  | [] => ""
  | step :: rest =>
    match step.stop with
    | some _ => step.chunk
    | none => step.chunk ++ readAll rest

/-- Embedding of `Client.GetPodLogs`: a `Stream` failure is wrapped and
returned as the error; once the stream is open, the loop's accumulated text
is returned with a nil error. -/
def GetPodLogs (ns name : String) (stream : Except String (List ReadStep)) :
    Except String String :=
  match stream with
  | .error e => .error ("failed to get logs for pod " ++ name ++ " in namespace " ++ ns ++ ": " ++ e)
  | .ok steps => .ok (readAll steps)

end k8s

namespace handlers

/-! ## Tool handlers (internal/handlers/tools.go)

Each handler validates its arguments and delegates. The cluster client and
`json.MarshalIndent` are external collaborators, so each handler abstracts
over them: `client` is the adapter method it calls, `marshal` the
serialization of the result record(s). (MarshalIndent cannot fail on these
struct types, so it is a total `String`-valued function.) A handler's result
is `Except String String`: the tool-call failure, or the text content. -/

/-- Embedding of `getNamespace`: the `namespace` argument if it is a
non-empty string, else "default". -/
def getNamespace (args : Args) : String :=
  match argLookup args "namespace" with
  | some (.str ns) => if ns ≠ "" then ns else "default"
  | _ => "default"

/-- Name extraction shared by the single-resource handlers:
`name, ok := args["name"].(string)` followed by `!ok || name == ""`. -/
def requireName (args : Args) : Option String :=
  match argLookup args "name" with
  | some (.str s) => if s = "" then none else some s
  | _ => none

/-- Go conversion `int64(v)` on a float64: truncation toward zero (the
conversion of an out-of-int64-range float is implementation-defined in Go
and not modelled; the claims stay in range). -/
def goFloatToInt64 (q : Rat) : Int :=
  if 0 ≤ q then Rat.floor q else -(Rat.floor (-q))

/-- The `tail` type switch of `GetPodLogs`: a float64 or int is converted
with `int64(v)`; a string goes through `strconv.ParseInt` and is dropped on
error; any other type (or an absent key) leaves the tail unset. -/
def parseTail (args : Args) : Option Int :=
  match argLookup args "tail" with
  | some (.num q) => some (goFloatToInt64 q)
  | some (.int n) => some n
  | some (.str s) => goParseInt64 s
  | _ => none

/-- Embedding of the `GetPod` handler. -/
def GetPod (args : Args) (marshal : PodInfo → String)
    (client : String → String → Except String PodInfo) : Except String String :=
  match requireName args with
  | none => .error "pod name is required"
  | some name =>
    let ns := getNamespace args
    match client ns name with
    | .error e => .error ("failed to get pod: " ++ e)
    | .ok pod => .ok ("Pod '" ++ name ++ "' in namespace '" ++ ns ++ "':\n" ++ marshal pod)

/-- Embedding of the `GetPodLogs` handler. -/
def GetPodLogs (args : Args)
    (client : String → String → Option Int → Except String String) :
    Except String String :=
  match requireName args with
  | none => .error "pod name is required"
  | some name =>
    let ns := getNamespace args
    let tailLines := parseTail args
    match client ns name tailLines with
    | .error e => .error ("failed to get pod logs: " ++ e)
    | .ok logs => .ok ("Logs for pod '" ++ name ++ "' in namespace '" ++ ns ++ "':\n" ++ logs)

/-- Embedding of the `GetService` handler. -/
def GetService (args : Args) (marshal : ServiceInfo → String)
    (client : String → String → Except String ServiceInfo) : Except String String :=
  match requireName args with
  | none => .error "service name is required"
  | some name =>
    let ns := getNamespace args
    match client ns name with
    | .error e => .error ("failed to get service: " ++ e)
    | .ok s => .ok ("Service '" ++ name ++ "' in namespace '" ++ ns ++ "':\n" ++ marshal s)

/-- Embedding of the `GetDeployment` handler. -/
def GetDeployment (args : Args) (marshal : DeploymentInfo → String)
    (client : String → String → Except String DeploymentInfo) : Except String String :=
  match requireName args with
  | none => .error "deployment name is required"
  | some name =>
    let ns := getNamespace args
    match client ns name with
    | .error e => .error ("failed to get deployment: " ++ e)
    | .ok d => .ok ("Deployment '" ++ name ++ "' in namespace '" ++ ns ++ "':\n" ++ marshal d)

/-- Embedding of the `ListPods` handler. -/
def ListPods (args : Args) (marshal : List PodInfo → String)
    (client : String → Except String (List PodInfo)) : Except String String :=
  let ns := getNamespace args
  match client ns with
  | .error e => .error ("failed to list pods: " ++ e)
  | .ok pods => .ok ("Pods in namespace '" ++ ns ++ "':\n" ++ marshal pods)

end handlers

/-! ## JSON value trees

The display records go out through `json.MarshalIndent` and would come back
through `json.Unmarshal`. Both belong to the external encoding/json library;
they are modelled at the JSON value-tree level (the text printer and parser
are the library's, and whitespace does not affect the value). Encoding
follows the struct tags of types.go: field order, snake_case keys,
`omitempty` on the tagged fields, a nil slice as `null`. Decoding models
Unmarshal: fields are found by key, an absent key or a JSON null leaves the
zero value, a mistyped value is an error. -/

inductive JValue where
  | null
  | str (s : String)
  | num (n : Int)
  | boolVal (b : Bool)
  | arr (elems : List JValue)
  | obj (fields : List (String × JValue))

/-- Marshal of a `map[string]string`: an object of its entries. -/
def encodeStrMap (m : List (String × String)) : JValue :=
  .obj (m.map fun kv => (kv.1, .str kv.2))

/-- Marshal of a non-empty `[]string`. -/
def encodeStrList (l : List String) : JValue :=
  .arr (l.map .str)

/-- Field lookup in a decoded object, as Unmarshal matches keys. -/
def jLookup (fields : List (String × JValue)) (key : String) : Option JValue :=
  List.lookup key fields

/-- Unmarshal of a string field: absent or null leaves "", a string is
taken, anything else is an error. -/
def decStr : Option JValue → Option String
  | none => some ""
  | some .null => some ""
  | some (.str s) => some s
  | some _ => none

/-- Unmarshal of an int32 field. -/
def decInt : Option JValue → Option Int
  | none => some 0
  | some .null => some 0
  | some (.num n) => some n
  | some _ => none

/-- Unmarshal of the entries of a string-to-string object. -/
def decStrEntries : List (String × JValue) → Option (List (String × String))
  | [] => some []
  | (k, .str v) :: rest => (decStrEntries rest).map (fun r => (k, v) :: r)
  | _ => none

/-- Unmarshal of a `map[string]string` field. -/
def decStrMap : Option JValue → Option (List (String × String))
  | none => some []
  | some .null => some []
  | some (.obj fs) => decStrEntries fs
  | some _ => none

/-- Unmarshal of the elements of a string array. -/
def decStrElems : List JValue → Option (List String)
  | [] => some []
  | .str s :: rest => (decStrElems rest).map (fun r => s :: r)
  | _ => none

/-- Unmarshal of a `[]string` field. -/
def decStrList : Option JValue → Option (List String)
  | none => some []
  | some .null => some []
  | some (.arr xs) => decStrElems xs
  | some _ => none

/-- Marshal of a `PodInfo` per its struct tags (labels, node_name and
pod_ip carry omitempty). -/
def encodePodInfo (p : PodInfo) : JValue :=
  .obj
    ([("name", .str p.Name), ("namespace", .str p.Namespace),
      ("status", .str p.Status), ("ready", .str p.Ready),
      ("restarts", .num p.Restarts), ("age", .str p.Age)]
     ++ (if p.Labels = [] then [] else [("labels", encodeStrMap p.Labels)])
     ++ (if p.NodeName = "" then [] else [("node_name", .str p.NodeName)])
     ++ (if p.PodIP = "" then [] else [("pod_ip", .str p.PodIP)]))

/-- Unmarshal of a `PodInfo`. -/
def decodePodInfo : JValue → Option PodInfo
  | .obj fs => do
    let name ← decStr (jLookup fs "name")
    let ns ← decStr (jLookup fs "namespace")
    let status ← decStr (jLookup fs "status")
    let ready ← decStr (jLookup fs "ready")
    let restarts ← decInt (jLookup fs "restarts")
    let age ← decStr (jLookup fs "age")
    let labels ← decStrMap (jLookup fs "labels")
    let nodeName ← decStr (jLookup fs "node_name")
    let podIP ← decStr (jLookup fs "pod_ip")
    pure (PodInfo.mk name ns status ready restarts age labels nodeName podIP)
  | _ => none

/-- Marshal of a `ServiceInfo` (external_ips, labels and selector carry
omitempty; ports does not, so a nil slice becomes null). -/
def encodeServiceInfo (s : ServiceInfo) : JValue :=
  .obj
    ([("name", .str s.Name), ("namespace", .str s.Namespace),
      ("type", .str s.ServiceType), ("cluster_ip", .str s.ClusterIP)]
     ++ (if s.ExternalIPs = [] then [] else [("external_ips", encodeStrList s.ExternalIPs)])
     ++ [("ports", if s.Ports = [] then .null else encodeStrList s.Ports),
         ("age", .str s.Age)]
     ++ (if s.Labels = [] then [] else [("labels", encodeStrMap s.Labels)])
     ++ (if s.Selector = [] then [] else [("selector", encodeStrMap s.Selector)]))

/-- Unmarshal of a `ServiceInfo`. -/
def decodeServiceInfo : JValue → Option ServiceInfo
  | .obj fs => do
    let name ← decStr (jLookup fs "name")
    let ns ← decStr (jLookup fs "namespace")
    let ty ← decStr (jLookup fs "type")
    let clusterIP ← decStr (jLookup fs "cluster_ip")
    let externalIPs ← decStrList (jLookup fs "external_ips")
    let ports ← decStrList (jLookup fs "ports")
    let age ← decStr (jLookup fs "age")
    let labels ← decStrMap (jLookup fs "labels")
    let selector ← decStrMap (jLookup fs "selector")
    pure (ServiceInfo.mk name ns ty clusterIP externalIPs ports age labels selector)
  | _ => none

/-- Marshal of a `DeploymentInfo` (labels carries omitempty). -/
def encodeDeploymentInfo (d : DeploymentInfo) : JValue :=
  .obj
    ([("name", .str d.Name), ("namespace", .str d.Namespace),
      ("ready", .str d.Ready), ("up_to_date", .num d.UpToDate),
      ("available", .num d.Available), ("age", .str d.Age)]
     ++ (if d.Labels = [] then [] else [("labels", encodeStrMap d.Labels)])
     ++ [("replicas", .num d.Replicas)])

/-- Unmarshal of a `DeploymentInfo`. -/
def decodeDeploymentInfo : JValue → Option DeploymentInfo
  | .obj fs => do
    let name ← decStr (jLookup fs "name")
    let ns ← decStr (jLookup fs "namespace")
    let ready ← decStr (jLookup fs "ready")
    let upToDate ← decInt (jLookup fs "up_to_date")
    let available ← decInt (jLookup fs "available")
    let age ← decStr (jLookup fs "age")
    let labels ← decStrMap (jLookup fs "labels")
    let replicas ← decInt (jLookup fs "replicas")
    pure (DeploymentInfo.mk name ns ready upToDate available age labels replicas)
  | _ => none

/-- Marshal of a `NamespaceInfo` (labels carries omitempty). -/
def encodeNamespaceInfo (n : NamespaceInfo) : JValue :=
  .obj
    ([("name", .str n.Name), ("status", .str n.Status), ("age", .str n.Age)]
     ++ (if n.Labels = [] then [] else [("labels", encodeStrMap n.Labels)]))

/-- Unmarshal of a `NamespaceInfo`. -/
def decodeNamespaceInfo : JValue → Option NamespaceInfo
  | .obj fs => do
    let name ← decStr (jLookup fs "name")
    let status ← decStr (jLookup fs "status")
    let age ← decStr (jLookup fs "age")
    let labels ← decStrMap (jLookup fs "labels")
    pure (NamespaceInfo.mk name status age labels)
  | _ => none

/-! ## The startup log-level parse (cmd/server/main.go)

main declares `var logLevel *slog.Level` — a nil pointer — and immediately
calls `logLevel.UnmarshalText([]byte(cfg.Logging.Level))`. UnmarshalText
delegates to `(*slog.Level).parse`, which splits an optional "+n"/"-n"
offset off the name, switches on the upper-cased name, and assigns the
parsed level through the receiver (`*l = …`). With a nil receiver that
assignment is a nil-pointer dereference; parse's deferred recover converts
the panic into a returned error, so UnmarshalText reports an error — for
well-formed level strings too — and main exits via log.Fatalf. -/

/-- ASCII upper-casing of one character (`strings.ToUpper` restricted to
ASCII; slog's level names are ASCII). -/
def charUpper (c : Char) : Char :=
  if 'a' ≤ c ∧ c ≤ 'z' then Char.ofNat (c.toNat - 32) else c

/-- ASCII model of `strings.ToUpper`. -/
def asciiToUpper (s : String) : String := String.mk (s.data.map charUpper)

/-- The level value of an upper-cased slog level name. -/
def levelOfName (name : String) : Option Int :=
  if name = "DEBUG" then some (-4)
  else if name = "INFO" then some 0
  else if name = "WARN" then some 4
  else if name = "ERROR" then some 8
  else none

/-- Name/offset split of a level string: `strings.IndexAny(s, "+-")` cuts
the string at the first sign character. -/
def slogSplit (s : String) : String × String :=
  match s.data.findIdx? (fun c => c == '+' || c == '-') with
  | some i => (String.mk (s.data.take i), String.mk (s.data.drop i))
  | none => (s, "")

/-- Offset parse: no suffix means offset 0, otherwise `strconv.Atoi`. -/
def slogOffset (suffix : String) : Option Int :=
  if suffix = "" then some 0 else goParseInt64 suffix

/-- Embedding of `(*slog.Level).parse` as called through UnmarshalText,
with the receiver's nilness explicit. `strconv.Atoi` on the offset suffix
is ParseInt at bit size 64. When the name is known, the assignment
`*l = level` through a nil receiver panics and the deferred recover returns
that panic as the error. -/
def slogLevelParse (receiverIsNil : Bool) (s : String) : Except String Int :=
  match slogOffset (slogSplit s).2 with
  | none => .error ("slog: level string " ++ s ++ ": invalid offset")
  | some offset =>
    match levelOfName (asciiToUpper (slogSplit s).1) with
    | none => .error ("slog: level string " ++ s ++ ": unknown name")
    | some lvl =>
      if receiverIsNil then
        .error ("slog: level string " ++ s ++
          ": runtime error: invalid memory address or nil pointer dereference")
      else .ok (lvl + offset)

/-- The log-level parse step of main: `var logLevel *slog.Level` is nil, so
the parse runs with a nil receiver. `some level` would mean main proceeds
with that level; an error means `log.Fatalf` (non-zero exit). -/
def mainLogLevelStep (levelStr : String) : Except String Int :=
  slogLevelParse true levelStr

/-! ## Shared lemmas -/

/-- The Go `for … append` list loop builds the in-order map of its body. -/
theorem foldl_append_eq_map {α β : Type} (f : α → β) :
    ∀ (l : List α) (acc : List β),
      l.foldl (fun acc x => acc ++ [f x]) acc = acc ++ l.map f
  | [], acc => by simp
  | x :: xs, acc => by
    simp only [List.foldl_cons, List.map_cons]
    rw [foldl_append_eq_map f xs (acc ++ [f x])]
    simp

/-- Characterization of `requireName` failing: the `name` argument is
absent, not a string, or the empty string. -/
theorem requireName_eq_none_iff (args : Args) :
    handlers.requireName args = none ↔
      (argLookup args "name" = none ∨
       (∃ v, argLookup args "name" = some v ∧ ∀ s, v ≠ GoVal.str s) ∨
       argLookup args "name" = some (GoVal.str "")) := by
  unfold handlers.requireName
  cases h : argLookup args "name" with
  | none => simp [h]
  | some v =>
    cases v with
    | str s => by_cases hs : s = "" <;> simp [h, hs]
    | num q => simp [h]
    | int n => simp [h]
    | boolVal b => simp [h]
    | nullVal => simp [h]
    | other => simp [h]

/-! ## Claims -/

/-- C6: for every tool-call argument set, an absent, non-string or empty
`namespace` argument resolves to "default", and a non-empty string is used
unchanged; the resolved namespace is what the list-pods handler passes to
the downstream client call and prints in its response preamble. -/
theorem c6_namespace_defaulting :
    ∀ args : Args,
      (argLookup args "namespace" = none → handlers.getNamespace args = "default") ∧
      (∀ v, argLookup args "namespace" = some v → (∀ s, v ≠ GoVal.str s) →
        handlers.getNamespace args = "default") ∧
      (argLookup args "namespace" = some (GoVal.str "") →
        handlers.getNamespace args = "default") ∧
      (∀ s, s ≠ "" → argLookup args "namespace" = some (GoVal.str s) →
        handlers.getNamespace args = s) ∧
      (∀ (marshal : List PodInfo → String)
         (client : String → Except String (List PodInfo)) pods,
        client (handlers.getNamespace args) = Except.ok pods →
        handlers.ListPods args marshal client =
          Except.ok ("Pods in namespace '" ++ handlers.getNamespace args ++ "':\n" ++
            marshal pods)) := by
  intro args
  refine ⟨?_, ?_, ?_, ?_, ?_⟩
  · intro h; simp [handlers.getNamespace, h]
  · intro v hv hns
    cases v with
    | str s => exact absurd rfl (hns s)
    | num q => simp [handlers.getNamespace, hv]
    | int n => simp [handlers.getNamespace, hv]
    | boolVal b => simp [handlers.getNamespace, hv]
    | nullVal => simp [handlers.getNamespace, hv]
    | other => simp [handlers.getNamespace, hv]
  · intro h; simp [handlers.getNamespace, h]
  · intro s hs h; simp [handlers.getNamespace, h, hs]
  · intro marshal client pods hclient
    simp [handlers.ListPods, hclient]

/-- Witness for C6 at concrete inputs: no arguments at all give "default",
a non-string namespace gives "default", and a non-empty string namespace is
used unchanged, including in the list-pods preamble. -/
theorem c6_namespace_defaulting_witness :
    handlers.getNamespace [] = "default" ∧
    handlers.getNamespace [("namespace", GoVal.int 3)] = "default" ∧
    handlers.getNamespace [("namespace", GoVal.str "kube-system")] = "kube-system" ∧
    handlers.ListPods [("namespace", GoVal.str "kube-system")]
        (fun _ => "[]") (fun _ => Except.ok []) =
      Except.ok ("Pods in namespace 'kube-system':\n[]") := by
  refine ⟨?_, ?_, ?_, ?_⟩
  · exact (c6_namespace_defaulting []).1 (by decide)
  · exact (c6_namespace_defaulting [("namespace", GoVal.int 3)]).2.1
      (GoVal.int 3) (by decide) (fun s h => by cases h)
  · exact (c6_namespace_defaulting [("namespace", GoVal.str "kube-system")]).2.2.2.1
      "kube-system" (by decide) (by decide)
  · have h := (c6_namespace_defaulting [("namespace", GoVal.str "kube-system")]).2.2.2.2
      (fun _ => "[]") (fun _ => Except.ok []) [] rfl
    rw [h]
    have hns := (c6_namespace_defaulting [("namespace", GoVal.str "kube-system")]).2.2.2.1
      "kube-system" (by decide) (by decide)
    rw [hns]
    rfl

/-- C5: if the `name` argument is absent, not a string, or empty, each
single-resource handler (get-pod, get-pod-logs, get-service,
get-deployment) returns its client-error failure, and its result does not
depend on the cluster client at all (so no downstream call is made). -/
theorem c5_missing_name_is_client_error :
    ∀ args : Args,
      (argLookup args "name" = none ∨
       (∃ v, argLookup args "name" = some v ∧ ∀ s, v ≠ GoVal.str s) ∨
       argLookup args "name" = some (GoVal.str "")) →
      ∀ (marshalP : PodInfo → String) (marshalS : ServiceInfo → String)
        (marshalD : DeploymentInfo → String)
        (pc pc' : String → String → Except String PodInfo)
        (lc lc' : String → String → Option Int → Except String String)
        (sc sc' : String → String → Except String ServiceInfo)
        (dc dc' : String → String → Except String DeploymentInfo),
        handlers.GetPod args marshalP pc = Except.error "pod name is required" ∧
        handlers.GetPod args marshalP pc = handlers.GetPod args marshalP pc' ∧
        handlers.GetPodLogs args lc = Except.error "pod name is required" ∧
        handlers.GetPodLogs args lc = handlers.GetPodLogs args lc' ∧
        handlers.GetService args marshalS sc = Except.error "service name is required" ∧
        handlers.GetService args marshalS sc = handlers.GetService args marshalS sc' ∧
        handlers.GetDeployment args marshalD dc = Except.error "deployment name is required" ∧
        handlers.GetDeployment args marshalD dc = handlers.GetDeployment args marshalD dc' := by
  intro args hbad marshalP marshalS marshalD pc pc' lc lc' sc sc' dc dc'
  have hname : handlers.requireName args = none :=
    (requireName_eq_none_iff args).mpr hbad
  refine ⟨?_, ?_, ?_, ?_, ?_, ?_, ?_, ?_⟩ <;>
    simp [handlers.GetPod, handlers.GetPodLogs, handlers.GetService,
      handlers.GetDeployment, hname]

/-- Witness for C5: with an empty argument map (name absent) every
single-resource handler fails with its required-name error, under two
different clients each, so the clients are never consulted. -/
theorem c5_missing_name_witness :
    handlers.GetPod [] (fun _ => "") (fun _ _ => Except.ok (PodInfo.mk "" "" "" "" 0 "" [] "" "")) =
      Except.error "pod name is required" ∧
    handlers.GetPodLogs [] (fun _ _ _ => Except.ok "logs") =
      Except.error "pod name is required" ∧
    handlers.GetService []
        (fun _ => "") (fun _ _ => Except.error "unreachable") =
      Except.error "service name is required" ∧
    handlers.GetDeployment []
        (fun _ => "") (fun _ _ => Except.error "unreachable") =
      Except.error "deployment name is required" := by
  have h := c5_missing_name_is_client_error [] (Or.inl (by decide))
    (fun _ => "") (fun _ => "") (fun _ => "")
    (fun _ _ => Except.ok (PodInfo.mk "" "" "" "" 0 "" [] "" ""))
    (fun _ _ => Except.ok (PodInfo.mk "" "" "" "" 0 "" [] "" ""))
    (fun _ _ _ => Except.ok "logs") (fun _ _ _ => Except.ok "logs")
    (fun _ _ => Except.error "unreachable") (fun _ _ => Except.error "unreachable")
    (fun _ _ => Except.error "unreachable") (fun _ _ => Except.error "unreachable")
  exact ⟨h.1, h.2.2.1, h.2.2.2.2.1, h.2.2.2.2.2.2.1⟩

/-- C9: the claim says the startup log-level parse succeeds for every
well-formed level value. The code contradicts it: main calls UnmarshalText
on a nil `*slog.Level`, so the parse step returns an error for every input
— for the documented default "info" the error is the recovered nil-pointer
dereference — and main exits via log.Fatalf. This theorem evaluates the
parse step at the failing input and shows no input can succeed. -/
theorem c9_log_level_parse_always_fails :
    mainLogLevelStep "info" =
      Except.error ("slog: level string info: runtime error: invalid memory address or nil pointer dereference") ∧
    ∀ (s : String) (lvl : Int), mainLogLevelStep s ≠ Except.ok lvl := by
  constructor
  · rfl
  · intro s lvl h
    unfold mainLogLevelStep slogLevelParse at h
    repeat'
      first
        | exact Except.noConfusion h
        | split at h

/-- C3: for a creation timestamp in the past, the age string is the
floor of the elapsed time in a single unit (`/` on Int is floor division
for these positive divisors): whole seconds with "s" under a minute,
whole minutes with "m" under an hour, whole hours with "h" under 24 hours,
whole days with "d" from 24 hours on. -/
theorem c3_format_age_floor_single_unit :
    ∀ now t : Int, t < now →
      (now - t < k8s.nsPerMinute →
        k8s.formatAge now t = toString ((now - t) / k8s.nsPerSecond) ++ "s") ∧
      (k8s.nsPerMinute ≤ now - t → now - t < k8s.nsPerHour →
        k8s.formatAge now t = toString ((now - t) / k8s.nsPerMinute) ++ "m") ∧
      (k8s.nsPerHour ≤ now - t → now - t < 24 * k8s.nsPerHour →
        k8s.formatAge now t = toString ((now - t) / k8s.nsPerHour) ++ "h") ∧
      (24 * k8s.nsPerHour ≤ now - t →
        k8s.formatAge now t = toString ((now - t) / (24 * k8s.nsPerHour)) ++ "d") := by
  intro now t hpast
  have hage : (0:Int) ≤ now - t := by omega
  refine ⟨?_, ?_, ?_, ?_⟩
  · intro h1
    show (if now - t < k8s.nsPerMinute then
        toString (Int.tdiv (now - t) k8s.nsPerSecond) ++ "s"
      else if now - t < k8s.nsPerHour then
        toString (Int.tdiv (now - t) k8s.nsPerMinute) ++ "m"
      else if now - t < 24 * k8s.nsPerHour then
        toString (Int.tdiv (now - t) k8s.nsPerHour) ++ "h"
      else toString (Int.tdiv (now - t) (24 * k8s.nsPerHour)) ++ "d") = _
    rw [if_pos h1, Int.tdiv_eq_ediv hage (by decide)]
  · intro h1 h2
    show (if now - t < k8s.nsPerMinute then
        toString (Int.tdiv (now - t) k8s.nsPerSecond) ++ "s"
      else if now - t < k8s.nsPerHour then
        toString (Int.tdiv (now - t) k8s.nsPerMinute) ++ "m"
      else if now - t < 24 * k8s.nsPerHour then
        toString (Int.tdiv (now - t) k8s.nsPerHour) ++ "h"
      else toString (Int.tdiv (now - t) (24 * k8s.nsPerHour)) ++ "d") = _
    rw [if_neg (by omega), if_pos h2, Int.tdiv_eq_ediv hage (by decide)]
  · intro h1 h2
    show (if now - t < k8s.nsPerMinute then
        toString (Int.tdiv (now - t) k8s.nsPerSecond) ++ "s"
      else if now - t < k8s.nsPerHour then
        toString (Int.tdiv (now - t) k8s.nsPerMinute) ++ "m"
      else if now - t < 24 * k8s.nsPerHour then
        toString (Int.tdiv (now - t) k8s.nsPerHour) ++ "h"
      else toString (Int.tdiv (now - t) (24 * k8s.nsPerHour)) ++ "d") = _
    have hm : k8s.nsPerMinute ≤ now - t := by
      have : k8s.nsPerMinute ≤ k8s.nsPerHour := by decide
      omega
    rw [if_neg (by omega), if_neg (by omega), if_pos h2,
      Int.tdiv_eq_ediv hage (by decide)]
  · intro h1
    show (if now - t < k8s.nsPerMinute then
        toString (Int.tdiv (now - t) k8s.nsPerSecond) ++ "s"
      else if now - t < k8s.nsPerHour then
        toString (Int.tdiv (now - t) k8s.nsPerMinute) ++ "m"
      else if now - t < 24 * k8s.nsPerHour then
        toString (Int.tdiv (now - t) k8s.nsPerHour) ++ "h"
      else toString (Int.tdiv (now - t) (24 * k8s.nsPerHour)) ++ "d") = _
    have hcmp : k8s.nsPerMinute ≤ 24 * k8s.nsPerHour ∧
        k8s.nsPerHour ≤ 24 * k8s.nsPerHour := by decide
    rw [if_neg (by omega), if_neg (by omega), if_neg (by omega),
      Int.tdiv_eq_ediv hage (by decide)]

/-- Witness for C3 at the spec's four examples: 30 seconds → "30s",
5 minutes → "5m", 3 hours → "3h", 25 hours → "1d". -/
theorem c3_format_age_witness :
    ((0:Int) < 30000000000 ∧ k8s.formatAge 30000000000 0 = "30s") ∧
    ((0:Int) < 300000000000 ∧ k8s.formatAge 300000000000 0 = "5m") ∧
    ((0:Int) < 10800000000000 ∧ k8s.formatAge 10800000000000 0 = "3h") ∧
    ((0:Int) < 90000000000000 ∧ k8s.formatAge 90000000000000 0 = "1d") := by
  refine ⟨⟨by decide, ?_⟩, ⟨by decide, ?_⟩, ⟨by decide, ?_⟩, ⟨by decide, ?_⟩⟩
  · rw [(c3_format_age_floor_single_unit 30000000000 0 (by decide)).1 (by decide)]
    rfl
  · rw [(c3_format_age_floor_single_unit 300000000000 0 (by decide)).2.1
      (by decide) (by decide)]
    rfl
  · rw [(c3_format_age_floor_single_unit 10800000000000 0 (by decide)).2.2.1
      (by decide) (by decide)]
    rfl
  · rw [(c3_format_age_floor_single_unit 90000000000000 0 (by decide)).2.2.2
      (by decide)]
    rfl

/-- C4: when the desired replica count is present, the projected deployment
record exists and its ready string is "readyReplicas/desiredReplicas" from
status and spec respectively; when the field is a nil pointer, the
projection hits the unguarded nil dereference (no error result is built). -/
theorem c4_deployment_ready_and_nil_deref :
    ∀ (now : Int) (d : Deployment),
      (∀ r, d.Spec.Replicas = some r →
        ∃ info, k8s.buildDeploymentInfo now d = some info ∧
          info.Ready = toString d.Status.ReadyReplicas ++ "/" ++ toString r ∧
          info.Replicas = r) ∧
      (d.Spec.Replicas = none → k8s.buildDeploymentInfo now d = none) := by
  intro now d
  constructor
  · intro r hr
    unfold k8s.buildDeploymentInfo
    rw [hr]
    exact ⟨_, rfl, rfl, rfl⟩
  · intro hr
    unfold k8s.buildDeploymentInfo
    rw [hr]

/-- Witness for C4: a deployment with 2 ready replicas and desired count 3
projects to ready string "2/3"; the same deployment with a nil desired
count reaches the nil-pointer fault. -/
theorem c4_deployment_ready_witness :
    (∃ info, k8s.buildDeploymentInfo 0
        (Deployment.mk "web" "default" [] 0 (DeploymentSpec.mk (some 3))
          (DeploymentStatus.mk 2 3 2)) = some info ∧
        info.Ready = "2/3" ∧ info.Replicas = 3) ∧
    k8s.buildDeploymentInfo 0
        (Deployment.mk "web" "default" [] 0 (DeploymentSpec.mk none)
          (DeploymentStatus.mk 2 3 2)) = none := by
  constructor
  · obtain ⟨info, hinfo, hready, hrep⟩ :=
      (c4_deployment_ready_and_nil_deref 0
        (Deployment.mk "web" "default" [] 0 (DeploymentSpec.mk (some 3))
          (DeploymentStatus.mk 2 3 2))).1 3 rfl
    exact ⟨info, hinfo, by rw [hready]; rfl, hrep⟩
  · exact (c4_deployment_ready_and_nil_deref 0
      (Deployment.mk "web" "default" [] 0 (DeploymentSpec.mk none)
        (DeploymentStatus.mk 2 3 2))).2 rfl

/-- The container-status loop computes: ready = count of statuses marked
ready, total = number of statuses, restarts = sum of restart counts. -/
theorem podCountStep_foldl (l : List ContainerStatus) : ∀ a : k8s.PodCounts,
    l.foldl k8s.podCountStep a =
      k8s.PodCounts.mk
        (a.readyContainers + (l.countP (fun cs => cs.Ready) : Int))
        (a.totalContainers + (l.length : Int))
        (a.restarts + (l.map (fun cs => cs.RestartCount)).sum) := by
  induction l with
  | nil => intro a; simp
  | cons cs l ih =>
    intro a
    rw [List.foldl_cons, ih]
    simp only [k8s.podCountStep, List.countP_cons, List.length_cons, List.map_cons,
      List.sum_cons, k8s.PodCounts.mk.injEq]
    refine ⟨?_, ?_, ?_⟩
    · cases h : cs.Ready <;> (simp [h]; try omega)
    · omega
    · ring

/-- C8: the pod ready string counts container statuses marked ready over
the total number of container statuses (not the spec's container count);
in particular a pod with 1 ready container of 1 total gives "1/1". -/
theorem c8_pod_ready_counts :
    (∀ (now : Int) (pod : Pod),
      (k8s.buildPodInfo now pod).Ready =
        toString (pod.Status.ContainerStatuses.countP (fun cs => cs.Ready)) ++ "/" ++
          toString pod.Status.ContainerStatuses.length) ∧
    (k8s.buildPodInfo 0
      (Pod.mk "web" "default" [] 0 (PodSpec.mk "node1")
        (PodStatus.mk "Running" [ContainerStatus.mk true 0] "10.0.0.1"))).Ready = "1/1" := by
  constructor
  · intro now pod
    have h := podCountStep_foldl pod.Status.ContainerStatuses (k8s.PodCounts.mk 0 0 0)
    show toString (pod.Status.ContainerStatuses.foldl k8s.podCountStep
        (k8s.PodCounts.mk 0 0 0)).readyContainers ++ "/" ++
      toString (pod.Status.ContainerStatuses.foldl k8s.podCountStep
        (k8s.PodCounts.mk 0 0 0)).totalContainers = _
    rw [h]
    show toString ((0:Int) +
        (pod.Status.ContainerStatuses.countP (fun cs => cs.Ready) : Int)) ++ "/" ++
      toString ((0:Int) + (pod.Status.ContainerStatuses.length : Int)) = _
    rw [zero_add, zero_add]
    rfl
  · rfl

/-- Specification-side in-order projection of a deployment list: project
each item in upstream order, propagating the nil-pointer fault. -/
def projectDeployments (now : Int) : List Deployment → Option (List DeploymentInfo)
  | [] => some []
  | d :: rest =>
    match k8s.buildDeploymentInfo now d, projectDeployments now rest with
    | some i, some infos => some (i :: infos)
    | _, _ => none

/-- A faulted deployment loop stays faulted. -/
theorem deployFoldl_none (now : Int) (ds : List Deployment) :
    ds.foldl
      (fun acc d =>
        match acc, k8s.buildDeploymentInfo now d with
        | some infos, some i => some (infos ++ [i])
        | _, _ => none)
      none = none := by
  induction ds with
  | nil => rfl
  | cons d ds ih => simpa using ih

/-- The deployment loop from any accumulator is the structural projection
with the accumulator prepended. -/
theorem deployFoldl_acc (now : Int) (ds : List Deployment) :
    ∀ acc : List DeploymentInfo,
      ds.foldl
        (fun acc d =>
          match acc, k8s.buildDeploymentInfo now d with
          | some infos, some i => some (infos ++ [i])
          | _, _ => none)
        (some acc) =
      (projectDeployments now ds).map (fun infos => acc ++ infos) := by
  induction ds with
  | nil => intro acc; simp [projectDeployments]
  | cons d ds ih =>
    intro acc
    rw [List.foldl_cons]
    cases hd : k8s.buildDeploymentInfo now d with
    | none =>
      simp only [hd]
      rw [deployFoldl_none]
      simp [projectDeployments, hd]
    | some i =>
      simp only [hd]
      rw [ih (acc ++ [i])]
      cases hrest : projectDeployments now ds with
      | none => simp [projectDeployments, hd, hrest]
      | some infos => simp [projectDeployments, hd, hrest]

/-- C7: each list operation returns exactly the in-order projection of the
upstream items (no re-sorting): pods and services map their builders over
the upstream list, deployments perform the structural in-order projection
(with the nil-replicas fault propagating), and an upstream result with zero
items yields an empty sequence with no error. -/
theorem c7_list_projection :
    (∀ (now : Int) (ns : String) (pods : List Pod),
      k8s.ListPods now ns (Except.ok pods) =
        Except.ok (pods.map (k8s.buildPodInfo now))) ∧
    (∀ (now : Int) (ns : String) (ss : List Service),
      k8s.ListServices now ns (Except.ok ss) =
        Except.ok (ss.map (k8s.buildServiceInfo now))) ∧
    (∀ (now : Int) (ds : List Deployment),
      k8s.buildDeploymentInfos now ds = projectDeployments now ds) ∧
    (∀ (now : Int) (ns : String),
      k8s.ListPods now ns (Except.ok []) = Except.ok [] ∧
      k8s.ListServices now ns (Except.ok []) = Except.ok [] ∧
      k8s.ListDeployments now ns (Except.ok []) = some (Except.ok [])) := by
  refine ⟨?_, ?_, ?_, ?_⟩
  · intro now ns pods
    simp [k8s.ListPods, foldl_append_eq_map]
  · intro now ns ss
    simp [k8s.ListServices, foldl_append_eq_map]
  · intro now ds
    unfold k8s.buildDeploymentInfos
    rw [deployFoldl_acc]
    cases hd : projectDeployments now ds <;> simp [hd]
  · intro now ns
    exact ⟨rfl, rfl, rfl⟩

/-- Concatenation of the bytes delivered by a sequence of reads. -/
def concatChunks : List k8s.ReadStep → String
  | [] => ""
  | s :: rest => s.chunk ++ concatChunks rest

/-- The read loop stops at the first erroring read and keeps exactly the
chunks delivered up to and including it. -/
theorem readAll_break (step : k8s.ReadStep) (hstep : step.stop.isSome) :
    ∀ (pre : List k8s.ReadStep), (∀ s ∈ pre, s.stop = none) →
      ∀ rest, k8s.readAll (pre ++ step :: rest) = concatChunks pre ++ step.chunk
  | [], _, rest => by
    cases hstop : step.stop with
    | none => rw [hstop] at hstep; cases hstep
    | some e => simp [k8s.readAll, hstop, concatChunks, String.empty_append]
  | s :: pre, hpre, rest => by
    have hs : s.stop = none := hpre s (by simp)
    simp only [List.cons_append, k8s.readAll, hs]
    show s.chunk ++ k8s.readAll (pre ++ step :: rest) = concatChunks (s :: pre) ++ step.chunk
    rw [readAll_break step hstep pre (fun x hx => hpre x (by simp [hx])) rest]
    simp [concatChunks, String.append_assoc]

/-- C2 counterexample: the stream opens, and its single read delivers
"partial log text" together with a non-EOF stream error. The claim demands
a failure result, but GetPodLogs returns the partial text as a success and
returns no error. -/
theorem c2_counterexample_partial_read_succeeds :
    (∃ step ∈ [k8s.ReadStep.mk "partial log text"
        (some (k8s.ReadEnd.err "connection reset"))],
      ∃ msg, step.stop = some (k8s.ReadEnd.err msg)) ∧
    k8s.GetPodLogs "default" "web"
        (Except.ok [k8s.ReadStep.mk "partial log text"
          (some (k8s.ReadEnd.err "connection reset"))]) =
      Except.ok "partial log text" ∧
    ∀ e, k8s.GetPodLogs "default" "web"
        (Except.ok [k8s.ReadStep.mk "partial log text"
          (some (k8s.ReadEnd.err "connection reset"))]) ≠ Except.error e := by
  refine ⟨⟨k8s.ReadStep.mk "partial log text" (some (k8s.ReadEnd.err "connection reset")),
    by simp, "connection reset", rfl⟩, rfl, ?_⟩
  intro e h
  simp [k8s.GetPodLogs, k8s.readAll] at h

/-- C2 (amended): GetPodLogs fails exactly when opening the stream fails,
with the wrapped stream error; once the stream is open, the first read
error — end-of-stream or any other — merely ends the loop, and the text
read so far (every chunk before the erroring read plus the chunk delivered
with it) is returned as a success. The handler therefore can partially
return. -/
theorem c2_open_failure_vs_partial_read :
    (∀ ns name e, k8s.GetPodLogs ns name (Except.error e) =
      Except.error ("failed to get logs for pod " ++ name ++ " in namespace " ++
        ns ++ ": " ++ e)) ∧
    (∀ ns name (pre : List k8s.ReadStep) (step : k8s.ReadStep)
       (rest : List k8s.ReadStep),
      (∀ s ∈ pre, s.stop = none) → step.stop.isSome →
      k8s.GetPodLogs ns name (Except.ok (pre ++ step :: rest)) =
        Except.ok (concatChunks pre ++ step.chunk)) := by
  constructor
  · intro ns name e
    rfl
  · intro ns name pre step rest hpre hstep
    show Except.ok (k8s.readAll (pre ++ step :: rest)) = _
    rw [readAll_break step hstep pre hpre rest]

/-- Witness for C2 (amended): one clean read of "line1" then a read that
delivers "line2" together with EOF yields the concatenation as a success;
a failed stream open yields the wrapped error. -/
theorem c2_open_failure_vs_partial_read_witness :
    (∀ s ∈ [k8s.ReadStep.mk "line1" none], s.stop = none) ∧
    (k8s.ReadStep.mk "line2" (some k8s.ReadEnd.eof)).stop.isSome = true ∧
    k8s.GetPodLogs "default" "web"
        (Except.ok ([k8s.ReadStep.mk "line1" none] ++
          k8s.ReadStep.mk "line2" (some k8s.ReadEnd.eof) :: [])) =
      Except.ok (concatChunks [k8s.ReadStep.mk "line1" none] ++ "line2") ∧
    k8s.GetPodLogs "default" "web" (Except.error "pod not running") =
      Except.error ("failed to get logs for pod " ++ "web" ++ " in namespace " ++
        "default" ++ ": " ++ "pod not running") := by
  refine ⟨by decide, by decide, ?_, ?_⟩
  · exact c2_open_failure_vs_partial_read.2 "default" "web"
      [k8s.ReadStep.mk "line1" none] (k8s.ReadStep.mk "line2" (some k8s.ReadEnd.eof))
      [] (by decide) (by decide)
  · exact c2_open_failure_vs_partial_read.1 "default" "web" "pod not running"

/-- Go's float-to-int64 truncation is the identity on integral values. -/
theorem goFloatToInt64_intCast (n : Int) : handlers.goFloatToInt64 (n : Rat) = n := by
  unfold handlers.goFloatToInt64
  have hf : ∀ m : Int, Rat.floor (m : Rat) = m := by
    intro m
    have h : Rat.floor (m : Rat) = ⌊(m : Rat)⌋ := rfl
    rw [h, Int.floor_intCast]
  by_cases h : (0 : Rat) ≤ (n : Rat)
  · rw [if_pos h, hf]
  · rw [if_neg h]
    have hneg : (-(n : Rat)) = ((-n : Int) : Rat) := by push_cast; ring
    rw [hneg, hf, neg_neg]

/-- C1: a numeric string that ParseInt reads as n, the float64 n and the
int n all yield the same tail limit n; a string ParseInt rejects leaves the
tail unset, and the get-pod-logs call with such a tail behaves exactly as
the call with no tail argument at all (in particular it does not fail
because of the tail). -/
theorem c1_tail_argument_equivalence :
    (∀ (args : Args) (s : String) (n : Int),
      goParseInt64 s = some n →
      (argLookup args "tail" = some (GoVal.str s) →
        handlers.parseTail args = some n) ∧
      (argLookup args "tail" = some (GoVal.num (n : Rat)) →
        handlers.parseTail args = some n) ∧
      (argLookup args "tail" = some (GoVal.int n) →
        handlers.parseTail args = some n)) ∧
    (∀ (args : Args) (s : String),
      goParseInt64 s = none →
      argLookup args "tail" = some (GoVal.str s) →
      handlers.parseTail args = none) ∧
    (∀ (name : String) (nsv : GoVal) (s : String)
       (client : String → String → Option Int → Except String String),
      goParseInt64 s = none →
      handlers.GetPodLogs
          [("name", GoVal.str name), ("namespace", nsv), ("tail", GoVal.str s)]
          client =
        handlers.GetPodLogs [("name", GoVal.str name), ("namespace", nsv)] client) := by
  refine ⟨?_, ?_, ?_⟩
  · intro args s n hs
    refine ⟨?_, ?_, ?_⟩
    · intro h; simp [handlers.parseTail, h, hs]
    · intro h; simp [handlers.parseTail, h, goFloatToInt64_intCast]
    · intro h; simp [handlers.parseTail, h]
  · intro args s hs h
    simp [handlers.parseTail, h, hs]
  · intro name nsv s client hs
    have hname : ∀ tl : Args,
        handlers.requireName (("name", GoVal.str name) :: tl) =
          (if name = "" then none else some name) := by
      intro tl
      simp [handlers.requireName, argLookup, List.lookup]
    have hns : handlers.getNamespace
        [("name", GoVal.str name), ("namespace", nsv)] =
        handlers.getNamespace
          [("name", GoVal.str name), ("namespace", nsv), ("tail", GoVal.str s)] := by
      cases nsv <;> simp [handlers.getNamespace, argLookup, List.lookup]
    have htail : handlers.parseTail
        [("name", GoVal.str name), ("namespace", nsv), ("tail", GoVal.str s)] = none := by
      simp [handlers.parseTail, argLookup, List.lookup, hs]
    have htail' : handlers.parseTail [("name", GoVal.str name), ("namespace", nsv)] = none := by
      simp [handlers.parseTail, argLookup, List.lookup]
    unfold handlers.GetPodLogs
    rw [hname, hname, htail, htail', hns]

/-- Witness for C1: the string "100", the float 100.0 and the int 100 all
give tail limit 100; the non-numeric string "abc" leaves the tail unset and
the get-pod-logs call equals the call without a tail. -/
theorem c1_tail_argument_witness :
    goParseInt64 "100" = some 100 ∧
    handlers.parseTail [("tail", GoVal.str "100")] = some 100 ∧
    handlers.parseTail [("tail", GoVal.num ((100 : Int) : Rat))] = some 100 ∧
    handlers.parseTail [("tail", GoVal.int 100)] = some 100 ∧
    goParseInt64 "abc" = none ∧
    handlers.parseTail [("name", GoVal.str "web"), ("namespace", GoVal.str "default"),
      ("tail", GoVal.str "abc")] = none ∧
    handlers.GetPodLogs
        [("name", GoVal.str "web"), ("namespace", GoVal.str "default"),
          ("tail", GoVal.str "abc")]
        (fun _ _ _ => Except.ok "the logs") =
      handlers.GetPodLogs [("name", GoVal.str "web"), ("namespace", GoVal.str "default")]
        (fun _ _ _ => Except.ok "the logs") := by
  have h100 : goParseInt64 "100" = some 100 := by decide
  have habc : goParseInt64 "abc" = none := by decide
  refine ⟨h100, ?_, ?_, ?_, habc, ?_, ?_⟩
  · exact ((c1_tail_argument_equivalence.1 [("tail", GoVal.str "100")] "100" 100 h100).1 rfl)
  · exact ((c1_tail_argument_equivalence.1
      [("tail", GoVal.num ((100 : Int) : Rat))] "100" 100 h100).2.1 rfl)
  · exact ((c1_tail_argument_equivalence.1
      [("tail", GoVal.int 100)] "100" 100 h100).2.2 rfl)
  · exact (c1_tail_argument_equivalence.2.1
      [("name", GoVal.str "web"), ("namespace", GoVal.str "default"),
        ("tail", GoVal.str "abc")] "abc" habc rfl)
  · exact (c1_tail_argument_equivalence.2.2 "web" (GoVal.str "default") "abc"
      (fun _ _ _ => Except.ok "the logs") habc)

/-- Decoding inverts encoding for string-map entries. -/
theorem decStrEntries_encode (m : List (String × String)) :
    decStrEntries (m.map fun kv => (kv.1, JValue.str kv.2)) = some m := by
  induction m with
  | nil => rfl
  | cons kv m ih => simp [decStrEntries, ih]

/-- Decoding inverts encoding for string-list elements. -/
theorem decStrElems_encode (l : List String) :
    decStrElems (l.map JValue.str) = some l := by
  induction l with
  | nil => rfl
  | cons s l ih => simp [decStrElems, ih]

/-- Round trip for `PodInfo`. -/
theorem decodePodInfo_encode (p : PodInfo) :
    decodePodInfo (encodePodInfo p) = some p := by
  obtain ⟨n, ns, st, rd, rs, ag, lb, nn, ip⟩ := p
  by_cases hL : lb = [] <;> by_cases hN : nn = "" <;> by_cases hP : ip = "" <;>
    simp [encodePodInfo, decodePodInfo, jLookup, List.lookup, hL, hN, hP,
      decStr, decInt, decStrMap, decStrEntries_encode, encodeStrMap]

/-- Round trip for `ServiceInfo`. -/
theorem decodeServiceInfo_encode (s : ServiceInfo) :
    decodeServiceInfo (encodeServiceInfo s) = some s := by
  obtain ⟨n, ns, ty, cip, eips, pts, ag, lb, sel⟩ := s
  by_cases hE : eips = [] <;> by_cases hPt : pts = [] <;> by_cases hL : lb = [] <;>
    by_cases hS : sel = [] <;>
    simp [encodeServiceInfo, decodeServiceInfo, jLookup, List.lookup, hE, hPt, hL, hS,
      decStr, decStrMap, decStrList, decStrEntries_encode, decStrElems_encode,
      encodeStrMap, encodeStrList]

/-- Round trip for `DeploymentInfo`. -/
theorem decodeDeploymentInfo_encode (d : DeploymentInfo) :
    decodeDeploymentInfo (encodeDeploymentInfo d) = some d := by
  obtain ⟨n, ns, rd, ut, av, ag, lb, rp⟩ := d
  by_cases hL : lb = [] <;>
    simp [encodeDeploymentInfo, decodeDeploymentInfo, jLookup, List.lookup, hL,
      decStr, decInt, decStrMap, decStrEntries_encode, encodeStrMap]

/-- Round trip for `NamespaceInfo`. -/
theorem decodeNamespaceInfo_encode (n : NamespaceInfo) :
    decodeNamespaceInfo (encodeNamespaceInfo n) = some n := by
  obtain ⟨nm, st, ag, lb⟩ := n
  by_cases hL : lb = [] <;>
    simp [encodeNamespaceInfo, decodeNamespaceInfo, jLookup, List.lookup, hL,
      decStr, decStrMap, decStrEntries_encode, encodeStrMap]

/-- C10: every display record, marshalled to its JSON value and
unmarshalled back, gives back a record equal field for field to the
original. -/
theorem c10_json_round_trip :
    (∀ p : PodInfo, decodePodInfo (encodePodInfo p) = some p) ∧
    (∀ s : ServiceInfo, decodeServiceInfo (encodeServiceInfo s) = some s) ∧
    (∀ d : DeploymentInfo, decodeDeploymentInfo (encodeDeploymentInfo d) = some d) ∧
    (∀ n : NamespaceInfo, decodeNamespaceInfo (encodeNamespaceInfo n) = some n) :=
  ⟨decodePodInfo_encode, decodeServiceInfo_encode,
    decodeDeploymentInfo_encode, decodeNamespaceInfo_encode⟩

end K8sMcp
